import Mathlib

/-!
Verification development for the HARC (HTTP Authenticated Response Content)
repository: a proxy-side response signer (`src/server-side/src/bin.js`) and a
client-side verifier extension (`src/web-extension/src/js/background.js`, with
historical variants).  JavaScript strings are modelled as lists of UTF-16 code
units (`List Nat`), byte buffers as `List Nat` with values below 256, and the
asynchronous crypto / DNS / gzip primitives as explicit function parameters
(environments), so every definition is executable.
-/

namespace HARC

/-! ### JavaScript string primitives

Header names and values are modelled with Lean `String`.  The JavaScript
string operations used by the repository (`toLowerCase`, `trim`, `split(";")`,
`includes`, `startsWith`, `parseInt`) are reimplemented over `List Char` so
that all definitions reduce by kernel computation.  `toLowerCase` is modelled
for ASCII (all content types and header names in the repository are ASCII). -/

def jsToLower (s : String) : String :=
  ⟨s.data.map Char.toLower⟩

def isWsChar (c : Char) : Bool :=
  c = ' ' || c = '\t' || c = '\n' || c = '\r'

def trimChars (cs : List Char) : List Char :=
  ((cs.dropWhile isWsChar).reverse.dropWhile isWsChar).reverse

def jsTrim (s : String) : String :=
  ⟨trimChars s.data⟩

/-- Model of JavaScript `s.split(";")`: `""` yields `[""]`, a trailing
separator yields a trailing empty field. -/
def splitSemiChars : List Char → List (List Char)
  | [] => [[]]
  | c :: t =>
    if c = ';' then [] :: splitSemiChars t
    else
      match splitSemiChars t with
      | h :: r => (c :: h) :: r
      | [] => [[c]]

def jsSplitSemi (s : String) : List String :=
  (splitSemiChars s.data).map (fun cs => ⟨cs⟩)

/-- Model of JavaScript `String.prototype.includes`: `sub` occurs as a
contiguous substring. -/
def hasSubstringChars (sub : List Char) : List Char → Bool
  | [] => sub.isEmpty
  | c :: t => sub.isPrefixOf (c :: t) || hasSubstringChars sub t

def jsIncludes (s sub : String) : Bool :=
  hasSubstringChars sub.data s.data

def jsStartsWith (s pre : String) : Bool :=
  pre.data.isPrefixOf s.data

def digitVal (c : Char) : Nat := c.toNat - 48

def isDigitChar (c : Char) : Bool := '0' ≤ c && c ≤ '9'

def digitsToNat (cs : List Char) : Nat :=
  cs.foldl (fun acc c => acc * 10 + digitVal c) 0

/-- Model of JavaScript `parseInt(s, 10)`: skip leading whitespace, optional
sign, then the longest prefix of decimal digits; `none` models `NaN`. -/
def jsParseInt (s : String) : Option Int :=
  let cs := s.data.dropWhile isWsChar
  let (sign, rest) :=
    match cs with
    | '-' :: r => ((-1 : Int), r)
    | '+' :: r => ((1 : Int), r)
    | r => ((1 : Int), r)
  let digits := rest.takeWhile isDigitChar
  if digits.isEmpty then none
  else some (sign * (digitsToNat digits : Int))

/-! ### str2ab (shared by signer and verifier)

`str2ab` writes `str.charCodeAt(i)` into a `Uint8Array`, which truncates each
UTF-16 code unit modulo 256. -/

def str2ab (s : List Nat) : List Nat :=
  s.map (fun u => u % 256)

/-! ### UTF-8 / UTF-16 codec

Models `Buffer.toString("utf-8")` (bytes to UTF-16 code units, invalid
sequences to U+FFFD), `Buffer.toString("binary")` (latin1: byte = code unit),
and the reverse encodings used by `response.end(content, encoding)`. -/

def isContByte (b : Nat) : Bool := 128 ≤ b && b ≤ 191

def utf8DecodeAux : Nat → List Nat → List Nat
  | 0, _ => []
  | _ + 1, [] => []
  | fuel + 1, b0 :: rest =>
    if b0 < 128 then b0 :: utf8DecodeAux fuel rest
    else if 194 ≤ b0 && b0 ≤ 223 then
      match rest with
      | b1 :: rest2 =>
        if isContByte b1 then ((b0 - 192) * 64 + (b1 - 128)) :: utf8DecodeAux fuel rest2
        else 0xFFFD :: utf8DecodeAux fuel (b1 :: rest2)
      | [] => [0xFFFD]
    else if 224 ≤ b0 && b0 ≤ 239 then
      match rest with
      | b1 :: b2 :: rest3 =>
        if isContByte b1 && isContByte b2 then
          let cp := (b0 - 224) * 4096 + (b1 - 128) * 64 + (b2 - 128)
          if cp < 2048 || (55296 ≤ cp && cp ≤ 57343) then 0xFFFD :: utf8DecodeAux fuel rest3
          else cp :: utf8DecodeAux fuel rest3
        else 0xFFFD :: utf8DecodeAux fuel (b1 :: b2 :: rest3)
      | _ => [0xFFFD]
    else if 240 ≤ b0 && b0 ≤ 244 then
      match rest with
      | b1 :: b2 :: b3 :: rest4 =>
        if isContByte b1 && isContByte b2 && isContByte b3 then
          let cp := (b0 - 240) * 262144 + (b1 - 128) * 4096 + (b2 - 128) * 64 + (b3 - 128)
          if cp < 65536 || 1114111 < cp then 0xFFFD :: utf8DecodeAux fuel rest4
          else cp :: utf8DecodeAux fuel rest4
        else 0xFFFD :: utf8DecodeAux fuel (b1 :: b2 :: b3 :: rest4)
      | _ => [0xFFFD]
    else 0xFFFD :: utf8DecodeAux fuel rest

/-- UTF-8 bytes to Unicode code points.  Each step consumes at least one
byte, so a fuel of `bs.length` always suffices. -/
def utf8DecodeCp (bs : List Nat) : List Nat :=
  utf8DecodeAux bs.length bs

def cpToUtf16 (cp : Nat) : List Nat :=
  if cp < 65536 then [cp]
  else [55296 + (cp - 65536) / 1024, 56320 + (cp - 65536) % 1024]

def utf16OfCp (cps : List Nat) : List Nat :=
  (cps.map cpToUtf16).flatten

def utf16ToCpAux : Nat → List Nat → List Nat
  | 0, _ => []
  | _ + 1, [] => []
  | fuel + 1, u :: rest =>
    if 55296 ≤ u && u ≤ 56319 then
      match rest with
      | u2 :: rest2 =>
        if 56320 ≤ u2 && u2 ≤ 57343 then
          (65536 + (u - 55296) * 1024 + (u2 - 56320)) :: utf16ToCpAux fuel rest2
        else 0xFFFD :: utf16ToCpAux fuel (u2 :: rest2)
      | [] => [0xFFFD]
    else if 56320 ≤ u && u ≤ 57343 then 0xFFFD :: utf16ToCpAux fuel rest
    else u :: utf16ToCpAux fuel rest

/-- UTF-16 code units to Unicode code points (lone surrogates become
U+FFFD). -/
def utf16ToCp (units : List Nat) : List Nat :=
  utf16ToCpAux units.length units

def utf8EncodeCp (cp : Nat) : List Nat :=
  if cp < 128 then [cp]
  else if cp < 2048 then [192 + cp / 64, 128 + cp % 64]
  else if cp < 65536 then [224 + cp / 4096, 128 + cp / 64 % 64, 128 + cp % 64]
  else [240 + cp / 262144, 128 + cp / 4096 % 64, 128 + cp / 64 % 64, 128 + cp % 64]

/-- `Buffer.toString(encoding)`: bytes to a JavaScript string (UTF-16 code
units).  `utf8 = false` is the `"binary"` (latin1) encoding. -/
def bufToString (utf8 : Bool) (bs : List Nat) : List Nat :=
  if utf8 then utf16OfCp (utf8DecodeCp bs) else bs

/-- `Buffer.from(str, encoding)` as performed by `response.end(content,
encoding)`: a JavaScript string back to wire bytes. -/
def strToBytes (utf8 : Bool) (units : List Nat) : List Nat :=
  if utf8 then ((utf16ToCp units).map utf8EncodeCp).flatten
  else units.map (fun u => u % 256)

/-! ### JavaScript `Map` keyed by URL strings -/

def mapGet {α : Type} (k : String) (m : List (String × α)) : Option α :=
  (m.find? (fun p => p.1 == k)).map (fun p => p.2)

def mapSet {α : Type} (k : String) (v : α) (m : List (String × α)) : List (String × α) :=
  (k, v) :: m.filter (fun p => p.1 != k)

def mapDelete {α : Type} (k : String) (m : List (String × α)) : List (String × α) :=
  m.filter (fun p => p.1 != k)

/-! ## Signer (proxy side)

Model of the `proxyRes.on("end", ...)` handler of `serve` in
`src/server-side/src/bin.js` (the snapshot that emits `X-ARC-ALGO` /
`X-ARC-DIGEST` / `X-ARC-SIGNATURE`).  Upstream headers arrive as an
association list (Node lowercases incoming header names); the outgoing
response header table is modelled as a case-insensitive map from
lowercased header names to values, where a value is either a copied
string or a number set via `setHeader(k, content.length)`. -/

namespace Signer

inductive HVal where
  | str (s : String)
  | num (n : Nat)
deriving DecidableEq

/-- `parseInt(getHeader("content-length"), 10)` applied to a header value;
a numeric value compares as itself. -/
def hvalToInt : HVal → Option Int
  | .str s => jsParseInt s
  | .num n => some (n : Int)

abbrev Headers : Type := String → Option HVal

def hEmpty : Headers := fun _ => none

/-- `response.setHeader(k, v)`: header names are case-insensitive, stored
lowercased. -/
def hSet (f : Headers) (k : String) (v : HVal) : Headers :=
  fun q => if q = jsToLower k then some v else f q

/-- Lookup in the upstream `proxyRes.headers` object. -/
def findHeader (hs : List (String × String)) (k : String) : Option String :=
  (hs.find? (fun p => jsToLower p.1 == k)).map (fun p => p.2)

/-- The forEach loop copying upstream headers onto the outgoing response,
skipping `content-encoding` ("Content already decompressed"). -/
def copyHeaders (hs : List (String × String)) : Headers :=
  hs.foldl
    (fun f p => if jsToLower p.1 = "content-encoding" then f else hSet f p.1 (.str p.2))
    hEmpty

def APP_CONTENT_TYPE_TO_SIGN : List String :=
  ["application/javascript", "application/json", "application/ld+json",
   "application/xml", "application/atom+xml"]

structure UpstreamResponse where
  headers : List (String × String)
  body : List Nat

structure SignerEnv where
  gunzip : List Nat → List Nat
  signB64 : List Nat → String
  digestB64 : List Nat → String
  digestHeader : Bool

structure ForwardedResponse where
  headers : Headers
  body : List Nat

/-- `const contentType = (proxyRes.headers["content-type"] ?? "-").toLowerCase()`. -/
def serveContentType (up : UpstreamResponse) : String :=
  jsToLower ((findHeader up.headers "content-type").getD "-")

/-- `const contentEncoding = (proxyRes.headers["content-encoding"] ?? "-").toLowerCase()`. -/
def serveContentEncoding (up : UpstreamResponse) : String :=
  jsToLower ((findHeader up.headers "content-encoding").getD "-")

/-- The signing condition of `serve`:
`contentType.includes("text/") || APP_CONTENT_TYPE_TO_SIGN.includes(contentType)`
(applied to the already-lowercased content type). -/
def isEligibleSigner (ct : String) : Bool :=
  jsIncludes ct "text/" || APP_CONTENT_TYPE_TO_SIGN.contains ct

/-- Eligibility as worded by the specification (for comparison with the
code): strip any `;`-separated parameters (such as `charset=...`), trim and
lowercase, then require a `text/` prefix or exact membership in the fixed
allow-list. -/
def isEligibleSpec (ct : String) : Bool :=
  let base := jsToLower (jsTrim ((jsSplitSemi ct).headD ""))
  jsStartsWith base "text/" || APP_CONTENT_TYPE_TO_SIGN.contains base

/-- `if (contentType.includes("charset=utf-8")) encoding = "utf-8"`:
whether the body is decoded as UTF-8 instead of binary/latin1. -/
def serveIsUtf8 (up : UpstreamResponse) : Bool :=
  jsIncludes (serveContentType up) "charset=utf-8"

/-- The `content` variable of the `proxyRes.on("end")` handler: the
concatenated chunks, gunzipped when the upstream declared
`Content-Encoding: gzip`, decoded with the chosen encoding. -/
def serveContent (env : SignerEnv) (up : UpstreamResponse) : List Nat :=
  bufToString (serveIsUtf8 up)
    (if serveContentEncoding up = "gzip" then env.gunzip up.body else up.body)

/-- The `proxyRes.on("end")` handler of `serve`: decompress when the
upstream declared gzip, decode (`utf-8` only when the content type declares
`charset=utf-8`, otherwise the binary/latin1 encoding), copy headers minus
`content-encoding`, overwrite `content-length` with `content.length` on
mismatch, then set the `X-ARC-*` headers when the content type is eligible
and send the re-encoded content. -/
def serveEnd (env : SignerEnv) (up : UpstreamResponse) : ForwardedResponse :=
  let contentType := serveContentType up
  let content := serveContent env up
  let f0 := copyHeaders up.headers
  let f1 :=
    match f0 "content-length" with
    | some hv =>
        if hvalToInt hv = some (content.length : Int) then f0
        else hSet f0 "content-length" (.num content.length)
    | none => f0
  let f2 :=
    if isEligibleSigner contentType then
      let fa := hSet f1 "x-arc-algo" (.str "ECDSA_P-256; SHA-256")
      let fb :=
        if env.digestHeader then hSet fa "x-arc-digest" (.str (env.digestB64 (str2ab content)))
        else fa
      hSet fb "x-arc-signature" (.str (env.signB64 (str2ab content)))
    else f1
  { headers := f2, body := strToBytes (serveIsUtf8 up) content }

end Signer

/-! ## Verifier (client side)

Model of `src/web-extension/src/js/background.js`.  The browser, DNS and
WebCrypto effects are supplied as an explicit environment: whether the DoH
server's hostname resolved, the TXT answers of the query (`none` models a
thrown/failed query), whether `crypto.subtle.importKey` accepts the
DER string obtained from DNS (`none` models `publicKeyDer = null`, for
which `window.atob(null)` decodes the string `"null"` to three garbage
bytes), whether `window.atob` accepts the signature header value, and the
outcome of `crypto.subtle.verify` for a given data buffer (the imported key
and decoded signature are fixed for the single response under scrutiny). -/

namespace BG

/-- Both byte views retained by `captureResponseContent` for one URL:
`ab` is `str2ab(responseChunks.join(""))`, `blob` is the binary-safe
concatenation obtained from the `Blob` of raw `ArrayBuffer` chunks. -/
structure RespData where
  ab : List Nat
  blob : List Nat
deriving DecidableEq

structure VerifyEnv where
  dohResolver : Option String
  dohResolvable : Bool
  queryResult : Option (List String)
  importOk : Option String → Bool
  atobOk : String → Bool
  verifyData : List Nat → Bool

structure TabState where
  tabAction : Option (Option String)
  tabResponses : List (String × RespData)
  validation : Option String

structure Response where
  url : String
  headers : List (String × String)

structure VerifyOutcome where
  validation : Option String
  tabAction : Option (Option String)
  tabResponses : List (String × RespData)
  script : Option String
deriving DecidableEq

def HARC_VALID_ACTIONS : List String := ["enforce", "warn"]

/-- TXT-answer parsing of `getHARCDNSPayload` (after a successful query):
split the first answer on `;`; one field is a bare key with default action
`warn`; two fields are `[action, publicKey]` with the trimmed, lowercased
action required to be in `HARC_VALID_ACTIONS`; anything else is an invalid
record, i.e. `[null, null]`. -/
def parseTxtAnswers (answers : List String) : Option String × Option String :=
  match answers with
  | [] => (none, none)
  | ans :: _ =>
    let payload := jsSplitSemi ans
    if payload.length = 1 then
      (some "warn", some (jsTrim (payload.headD "")))
    else if payload.length = 2 then
      let action := jsToLower (jsTrim (payload.headD ""))
      let pk := jsTrim ((payload.drop 1).headD "")
      if HARC_VALID_ACTIONS.contains action then (some action, some pk)
      else (none, none)
    else (none, none)

/-- `getHARCDNSPayload`: an unresolvable DoH endpoint short-circuits to
`["doh-failure", null]` before any TXT query; a thrown query also yields
`["doh-failure", null]`; otherwise the TXT answers are parsed. -/
def getHARCDNSPayload (env : VerifyEnv) : Option String × Option String :=
  if env.dohResolvable = false then (some "doh-failure", none)
  else
    match env.queryResult with
    | none => (some "doh-failure", none)
    | some answers => parseTxtAnswers answers

/-- The `VALIDATION_RESULT_MAP` update on the successful-verification
branch of `verifyResponseContent`. -/
def successUpdate : Option String → String
  | none => "trusted"
  | some c =>
    if c = "ignored-domain" then "trusted-partial"
    else if c = "doh-failure" ∨ c = "trusted-partial" ∨ c = "untrusted" then c
    else "trusted"

/-- The `VALIDATION_RESULT_MAP` update on the HARC-not-enabled branch of
`verifyResponseContent` (the `currentResult === null` arm of the code is
unreachable because only strings are ever stored). -/
def ignoredDomainUpdate : Option String → String
  | none => "ignored-domain"
  | some c => if c = "trusted" then "trusted-partial" else c

/-- `invokeFailure(tabId, action)`: a `doh-failure` action records the
`doh-failure` state and runs no script; any other action records
`untrusted` and executes the warn script, or the block script when the
action is `enforce`. -/
def invokeFailureUpdate (action : Option String) : String × Option String :=
  if action = some "doh-failure" then ("doh-failure", none)
  else
    ("untrusted",
     some (if action = some "enforce" then "src/actions/block.js" else "src/actions/warn.js"))

/-- The `response.responseHeaders.forEach` scan: the final value of
`signatureEncoded` is the trimmed value of the last `x-arc-signature`
header. -/
def extractSignature (headers : List (String × String)) : Option String :=
  (headers.filterMap
    (fun p => if jsToLower p.1 = "x-arc-signature" then some (jsTrim p.2) else none)).getLast?

/-- The failure action effectively used by `verifyResponseContent`: the
resource's own resolved action for the main document, otherwise the entry
of `TAB_ACTION_MAP` (whose absence gives JavaScript `undefined`, which the
`invokeFailure` dispatch treats like any non-`doh-failure`,
non-`enforce` action). -/
def effectiveAction (st : TabState) (respUrl tabUrl : String) (a0 : Option String) : Option String :=
  if respUrl = tabUrl then a0
  else
    match st.tabAction with
    | some v => v
    | none => none

/-- `verifyResponseContent` of `background.js` as a state transformer:
given the environment, the per-tab state (`TAB_ACTION_MAP` entry,
`TAB_RESPONSES_MAP` entry, `VALIDATION_RESULT_MAP` entry), the completed
response and the tab's main URL, produce the updated state and the failure
script executed, if any.  The bounded 10 × 1 s wait for the main
resource's action reads but never writes state, so in this sequential
model it collapses to the final `TAB_ACTION_MAP` read. -/
def verifyResponseContent (env : VerifyEnv) (st : TabState) (resp : Response)
    (tabUrl : String) : VerifyOutcome :=
  let keep : VerifyOutcome := ⟨st.validation, st.tabAction, st.tabResponses, none⟩
  if env.dohResolver = some resp.url then keep
  else if env.dohResolver = none then keep
  else
    match mapGet resp.url st.tabResponses with
    | none => keep
    | some respData =>
      let pair := getHARCDNSPayload env
      if pair.1 = none ∧ pair.2 = none then
        { keep with validation := some (ignoredDomainUpdate st.validation) }
      else
        let tabAction2 : Option (Option String) :=
          if resp.url = tabUrl then some pair.1 else st.tabAction
        let action : Option String := effectiveAction st resp.url tabUrl pair.1
        let fail : VerifyOutcome :=
          ⟨some (invokeFailureUpdate action).1, tabAction2, st.tabResponses,
           (invokeFailureUpdate action).2⟩
        if env.importOk pair.2 = false then fail
        else
          match extractSignature resp.headers with
          | none => fail
          | some sigEnc =>
            if env.atobOk sigEnc = false then fail
            else
              let verified :=
                if env.verifyData respData.blob then true else env.verifyData respData.ab
              let tabResponses2 := mapDelete resp.url st.tabResponses
              if verified then
                ⟨some (successUpdate st.validation), tabAction2, tabResponses2, none⟩
              else
                ⟨some (invokeFailureUpdate action).1, tabAction2, tabResponses2,
                 (invokeFailureUpdate action).2⟩

/-! ### Response capture (`captureResponseContent`) -/

structure CapState where
  written : List Nat
  chunksAB : List (List Nat)
  decoded : List (List Nat)
deriving DecidableEq

def capInit : CapState := ⟨[], [], []⟩

/-- One `responseFilter.ondata` event: write the chunk through to the
filter (append to the delivered stream), push the raw `ArrayBuffer`, and
push the streaming-decoded text chunk. -/
def capOndata (dec : List Nat → List Nat) (s : CapState) (data : List Nat) : CapState :=
  { written := s.written ++ data
    chunksAB := s.chunksAB ++ [data]
    decoded := s.decoded ++ [dec data] }

def capRun (dec : List Nat → List Nat) (chunks : List (List Nat)) : CapState :=
  chunks.foldl (capOndata dec) capInit

/-- `responseFilter.onstop`: close the filter, flush the decoder, and
assemble both byte views of the full body. -/
def capOnstop (decFlush : List Nat) (s : CapState) : RespData :=
  { ab := str2ab ((s.decoded ++ [decFlush]).flatten)
    blob := s.chunksAB.flatten }

/-- The whole capture of one response: stream all chunks through the
filter and, on completion, publish the assembled data under the resource
URL in the tab's response map (`Map.set` replaces any prior entry). -/
def captureFinish (dec : List Nat → List Nat) (decFlush : List Nat)
    (chunks : List (List Nat)) (url : String) (m : List (String × RespData)) :
    List Nat × List (String × RespData) :=
  let s := capRun dec chunks
  (s.written, mapSet url (capOnstop decFlush s) m)

/-! ### Trust-state sequences (for the monotonicity invariant) -/

inductive TrustUpdate where
  | success
  | ignoredDomain
  | failure (action : Option String)
deriving DecidableEq

/-- One per-resource outcome applied to a tab's `VALIDATION_RESULT_MAP`
entry, via the three update paths of `verifyResponseContent` /
`invokeFailure`. -/
def applyUpdate (v : Option String) : TrustUpdate → Option String
  | .success => some (successUpdate v)
  | .ignoredDomain => some (ignoredDomainUpdate v)
  | .failure a => some ((invokeFailureUpdate a).1)

end BG

/-! ## Historical verifier variant with the bounded response wait

Model of the `verifyResponseContent` wait loop of the snapshot that polls
`RESPONSE_MAP` (claim sources `unnamed/part_002` lines 633–650 and
`unnamed/part_003` lines 256–272): up to 5 iterations, each sleeping a
fixed 1 second, then a final `RESPONSE_MAP.has` check; on exhaustion the
URL is recorded `untrusted` and the failure action is invoked.  Time is
measured in elapsed 1-second sleeps, and `avail t` says whether the
captured buffer is present in `RESPONSE_MAP` after `t` sleeps. -/

namespace P2

inductive FailAct where
  | alertDoh
  | runFile (f : String)
deriving DecidableEq

/-- `invokeFailure(action)` of the `part_002` snapshot: `doh-failure`
raises a window alert, `enforce` runs the block script, anything else the
warn script. -/
def invokeFailureP2 (action : String) : FailAct :=
  if action = "doh-failure" then .alertDoh
  else .runFile (if action = "enforce" then "src/actions/block.js" else "src/actions/warn.js")

/-- The `for (let i = 0; i < 5; ++i)` poll loop: check availability, break
when present, otherwise sleep 1 second; returns the number of sleeps
performed. -/
def waitLoop (avail : Nat → Bool) : Nat → Nat → Nat
  | 0, t => t
  | b + 1, t => if avail t then t else waitLoop avail b (t + 1)

structure WaitResult where
  sleeps : Nat
  recorded : Option String
  failure : Option FailAct
  proceeded : Bool
deriving DecidableEq

/-- The wait phase of `verifyResponseContent` (after a successful key
import): poll with `waitLoop` with a budget of 5 one-second sleeps; if the
buffer is still absent, set the URL's `VALIDATION_RESULT_MAP` entry to
`untrusted` and invoke the failure action, otherwise proceed to signature
verification. -/
def responseWaitPhase (avail : Nat → Bool) (action : String) : WaitResult :=
  let t := waitLoop avail 5 0
  if avail t then ⟨t, none, none, true⟩
  else ⟨t, some "untrusted", some (invokeFailureP2 action), false⟩

end P2

/-! ## Helper lemmas -/

theorem mapGet_mapSet_self {α : Type} (k : String) (v : α) (m : List (String × α)) :
    mapGet k (mapSet k v m) = some v := by
  simp [mapGet, mapSet]

theorem mapGet_mapDelete_self {α : Type} (k : String) (m : List (String × α)) :
    mapGet k (mapDelete k m) = none := by
  simp only [mapGet, mapDelete, Option.map_eq_none', List.find?_eq_none, List.mem_filter]
  intro p hp
  have h1 := hp.2
  simp only [bne_iff_ne, ne_eq] at h1
  simp [h1]

theorem map_mod256_eq_self (l : List Nat) (h : ∀ b ∈ l, b < 256) :
    l.map (fun u => u % 256) = l := by
  induction l with
  | nil => rfl
  | cons a t ih =>
    have ha : a < 256 := h a (List.mem_cons_self a t)
    have ht : ∀ b ∈ t, b < 256 := fun b hb => h b (List.mem_cons_of_mem _ hb)
    simp [Nat.mod_eq_of_lt ha, ih ht]

theorem map_mod256_ne_self (s : List Nat) (h : ∃ u ∈ s, 256 ≤ u) :
    s.map (fun u => u % 256) ≠ s := by
  induction s with
  | nil => simp at h
  | cons a t ih =>
    intro heq
    simp only [List.map_cons, List.cons.injEq] at heq
    rcases h with ⟨u, hu, h256⟩
    rcases List.mem_cons.mp hu with rfl | hmem
    · have hlt : u % 256 < 256 := Nat.mod_lt _ (by omega)
      have h1 := heq.1
      omega
    · exact ih ⟨u, hmem, h256⟩ heq.2

theorem waitLoop_le (avail : Nat → Bool) : ∀ (b t : Nat), P2.waitLoop avail b t ≤ t + b := by
  intro b
  induction b with
  | zero => intro t; simp [P2.waitLoop]
  | succ n ih =>
    intro t
    simp only [P2.waitLoop]
    cases hav : avail t with
    | true => simp [hav]
    | false =>
      have hrec := ih (t + 1)
      simp only [hav, Bool.false_eq_true, if_false]
      omega

/-! ## Claims -/

/-- C10: `str2ab(s)` produces a buffer of exactly `s.length` bytes whose
`i`-th byte equals `charCodeAt(i)` modulo 256; consequently, for any string
containing a code unit of 256 or greater, the conversion is not injective:
a distinct string maps to the same bytes handed to the digest/sign/verify
primitives. -/
theorem c10_str2ab_truncates (s : List Nat) :
    (str2ab s).length = s.length ∧
    (∀ i : Nat, (str2ab s)[i]? = (s[i]?).map (fun u => u % 256)) ∧
    ((∃ u ∈ s, 256 ≤ u) → ∃ t : List Nat, t ≠ s ∧ str2ab t = str2ab s) := by
  refine ⟨by simp [str2ab], fun i => by simp [str2ab], fun h => ?_⟩
  refine ⟨s.map (fun u => u % 256), map_mod256_ne_self s h, ?_⟩
  simp only [str2ab, List.map_map]
  apply List.map_congr_left
  intro a _
  simp [Nat.mod_mod_of_dvd]

/-- C10 witness: the concrete string with code units `[0x130, 0x41]`
(containing a unit of 256 or more) evaluated through `c10_str2ab_truncates`. -/
theorem c10_str2ab_truncates_witness :
    (str2ab [304, 65]).length = 2 ∧
    (str2ab [304, 65])[0]? = some 48 ∧
    (∃ t : List Nat, t ≠ [304, 65] ∧ str2ab t = str2ab [304, 65]) := by
  have h := c10_str2ab_truncates [304, 65]
  exact ⟨by decide, by decide, h.2.2 ⟨304, by decide, by decide⟩⟩

/-- C8: the wait for the Response Capture buffer performs at most 5
polling attempts at fixed 1-second intervals (`sleeps` counts the 1-second
sleeps), and when the buffer never becomes available the retry budget is
exhausted, the resource is recorded `untrusted`, the failure action is
invoked, and verification does not proceed. -/
theorem c8_bounded_response_wait (avail : Nat → Bool) (action : String) :
    (P2.responseWaitPhase avail action).sleeps ≤ 5 ∧
    ((∀ t, avail t = false) →
      (P2.responseWaitPhase avail action).recorded = some "untrusted" ∧
      (P2.responseWaitPhase avail action).failure = some (P2.invokeFailureP2 action) ∧
      (P2.responseWaitPhase avail action).proceeded = false) := by
  constructor
  · have h := waitLoop_le avail 5 0
    simp only [P2.responseWaitPhase]
    split <;> simpa using h
  · intro hnever
    simp [P2.responseWaitPhase, hnever]

/-- C8 witness: a buffer that never arrives, with action `warn`,
evaluated through `c8_bounded_response_wait`. -/
theorem c8_bounded_response_wait_witness :
    (P2.responseWaitPhase (fun _ => false) "warn").sleeps ≤ 5 ∧
    (P2.responseWaitPhase (fun _ => false) "warn").recorded = some "untrusted" ∧
    (P2.responseWaitPhase (fun _ => false) "warn").failure = some (P2.invokeFailureP2 "warn") ∧
    (P2.responseWaitPhase (fun _ => false) "warn").proceeded = false := by
  have h := c8_bounded_response_wait (fun _ => false) "warn"
  exact ⟨h.1, h.2 (fun _ => rfl)⟩

/-- C6: within one navigation, once the tab's trust-state entry holds
`untrusted` or `doh-failure`, no later sequence of successful-verification
or ignored-domain outcomes changes the entry at all — in particular it is
never upgraded back to `trusted`. -/
theorem c6_trust_state_monotonic (v : Option String)
    (h : v = some "untrusted" ∨ v = some "doh-failure")
    (us : List BG.TrustUpdate)
    (hus : ∀ u ∈ us, u = BG.TrustUpdate.success ∨ u = BG.TrustUpdate.ignoredDomain) :
    us.foldl BG.applyUpdate v = v ∧ us.foldl BG.applyUpdate v ≠ some "trusted" := by
  have hfix : us.foldl BG.applyUpdate v = v := by
    induction us with
    | nil => rfl
    | cons u t ih =>
      have hu := hus u (List.mem_cons_self u t)
      have ht : ∀ x ∈ t, x = BG.TrustUpdate.success ∨ x = BG.TrustUpdate.ignoredDomain :=
        fun x hx => hus x (List.mem_cons_of_mem _ hx)
      have hstep : BG.applyUpdate v u = v := by
        rcases h with rfl | rfl <;> rcases hu with rfl | rfl <;> rfl
      rw [List.foldl_cons, hstep]
      exact ih ht
  refine ⟨hfix, ?_⟩
  rw [hfix]
  rcases h with rfl | rfl <;> simp

/-- C6 witness: starting from `untrusted`, a later successful verification
followed by an ignored-domain outcome leaves the entry `untrusted`,
evaluated through `c6_trust_state_monotonic`. -/
theorem c6_trust_state_monotonic_witness :
    [BG.TrustUpdate.success, BG.TrustUpdate.ignoredDomain].foldl BG.applyUpdate
        (some "untrusted") = some "untrusted" ∧
    [BG.TrustUpdate.success, BG.TrustUpdate.ignoredDomain].foldl BG.applyUpdate
        (some "untrusted") ≠ some "trusted" :=
  c6_trust_state_monotonic (some "untrusted") (Or.inl rfl)
    [BG.TrustUpdate.success, BG.TrustUpdate.ignoredDomain] (by decide)

theorem capRun_go (dec : List Nat → List Nat) (chunks : List (List Nat)) (s : BG.CapState) :
    (chunks.foldl (BG.capOndata dec) s).written = s.written ++ chunks.flatten ∧
    (chunks.foldl (BG.capOndata dec) s).chunksAB = s.chunksAB ++ chunks := by
  induction chunks generalizing s with
  | nil => simp
  | cons c t ih =>
    have h := ih (BG.capOndata dec s c)
    simp only [List.foldl_cons, List.flatten_cons]
    refine ⟨?_, ?_⟩
    · rw [h.1]; simp [BG.capOndata, List.append_assoc]
    · rw [h.2]; simp [BG.capOndata]

/-- C5: the response-capture filter writes every received chunk through to
the original destination unmodified and in order (the delivered stream is
exactly the concatenation of the chunks), while accumulating a full copy;
on upstream completion the complete assembled buffer (its binary-safe view
is again exactly the concatenation of all chunks) is published in the
response map under the resource URL, replacing any prior entry for that
URL. -/
theorem c5_capture_transparent_publish (dec : List Nat → List Nat) (decFlush : List Nat)
    (chunks : List (List Nat)) (url : String) (m : List (String × BG.RespData)) :
    (BG.captureFinish dec decFlush chunks url m).1 = chunks.flatten ∧
    mapGet url (BG.captureFinish dec decFlush chunks url m).2 =
      some (BG.capOnstop decFlush (BG.capRun dec chunks)) ∧
    (BG.capOnstop decFlush (BG.capRun dec chunks)).blob = chunks.flatten := by
  have h := capRun_go dec chunks BG.capInit
  refine ⟨?_, ?_, ?_⟩
  · show (BG.capRun dec chunks).written = chunks.flatten
    rw [BG.capRun, h.1]
    simp [BG.capInit]
  · exact mapGet_mapSet_self url _ m
  · show ((BG.capRun dec chunks).chunksAB).flatten = chunks.flatten
    rw [BG.capRun, h.2]
    simp [BG.capInit]

/-- TXT parsing exactly as worded by claim C2: one field maps to
`{action: "warn", publicKeyDer: field}`; two fields map to
`{action: lowercase(field0), publicKeyDer: field1}` provided the lowercased
action is `warn` or `enforce`, else `NotDeployed` (`none`); any other field
count, or zero answers, is `NotDeployed`.  Fields are the raw results of
the `;` split — the claim mentions no trimming. -/
def resolveParseClaim (answers : List String) : Option (String × String) :=
  match answers with
  | [] => none
  | ans :: _ =>
    match jsSplitSemi ans with
    | [f] => some ("warn", f)
    | [f0, f1] =>
      let act := jsToLower f0
      if act = "warn" ∨ act = "enforce" then some (act, f1) else none
    | _ => none

/-- TXT parsing as amended for claim C2: identical to `resolveParseClaim`
except that every field is trimmed before use (the code applies
`.trim()` to each field). -/
def resolveParseAmended (answers : List String) : Option (String × String) :=
  match answers with
  | [] => none
  | ans :: _ =>
    match (jsSplitSemi ans).map jsTrim with
    | [f] => some ("warn", f)
    | [f0, f1] =>
      let act := jsToLower f0
      if act = "warn" ∨ act = "enforce" then some (act, f1) else none
    | _ => none

/-- C2 counterexample: for the single TXT answer `"ENFORCE ;K"` the code
trims the action field and accepts the record as `{enforce, K}`, whereas
the claim's untrimmed `lowercase(field0) = "enforce "` is not in
`{warn, enforce}` and would make the record `NotDeployed`. -/
theorem c2_parse_counterexample :
    BG.parseTxtAnswers ["ENFORCE ;K"] = (some "enforce", some "K") ∧
    resolveParseClaim ["ENFORCE ;K"] = none := by
  constructor <;> decide

/-- C2 amended: for every list of TXT answers, `getHARCDNSPayload`'s parse
agrees with the claim's mapping once each `;`-separated field is trimmed
before use: one field gives `{warn, trim(field)}`, two fields give
`{lowercase(trim(field0)), trim(field1)}` when the lowercased trimmed
action is `warn` or `enforce` and `NotDeployed` otherwise, any other field
count or zero answers gives `NotDeployed`. -/
theorem c2_parse_amended (answers : List String) :
    BG.parseTxtAnswers answers =
      (match resolveParseAmended answers with
       | some (a, k) => (some a, some k)
       | none => (none, none)) := by
  match answers with
  | [] => rfl
  | ans :: rest =>
    simp only [BG.parseTxtAnswers, resolveParseAmended]
    match hsplit : jsSplitSemi ans with
    | [] => simp
    | [f] => simp
    | [f0, f1] =>
      simp only [List.length_cons, List.length_nil, List.map_cons, List.map_nil,
        List.headD, List.drop]
      by_cases hact : jsToLower (jsTrim f0) = "warn" ∨ jsToLower (jsTrim f0) = "enforce"
      · rcases hact with h | h <;> simp [BG.HARC_VALID_ACTIONS, h]
      · have h1 : jsToLower (jsTrim f0) ≠ "warn" := fun h => hact (Or.inl h)
        have h2 : jsToLower (jsTrim f0) ≠ "enforce" := fun h => hact (Or.inr h)
        simp [BG.HARC_VALID_ACTIONS, h1, h2, hact]
    | f0 :: f1 :: f2 :: r => simp [List.length]

theorem copy_fold_apply_none (hs : List (String × String)) (k : String) :
    ∀ f : Signer.Headers, f k = none → (∀ p ∈ hs, jsToLower p.1 ≠ k) →
      (hs.foldl
        (fun f p =>
          if jsToLower p.1 = "content-encoding" then f else Signer.hSet f p.1 (.str p.2)) f) k
        = none := by
  induction hs with
  | nil => intro f hf _; simpa using hf
  | cons p t ih =>
    intro f hf hk
    simp only [List.foldl_cons]
    refine ih _ ?_ (fun q hq => hk q (List.mem_cons_of_mem _ hq))
    by_cases hp : jsToLower p.1 = "content-encoding"
    · simpa [hp] using hf
    · have hne : jsToLower p.1 ≠ k := hk p (List.mem_cons_self p t)
      simp only [hp, if_false, Signer.hSet]
      rw [if_neg (fun h => hne h.symm)]
      exact hf

theorem copyHeaders_apply_none (hs : List (String × String)) (k : String)
    (hk : ∀ p ∈ hs, jsToLower p.1 ≠ k) : Signer.copyHeaders hs k = none :=
  copy_fold_apply_none hs k Signer.hEmpty rfl hk

theorem copy_fold_contentEncoding_none (hs : List (String × String)) :
    ∀ f : Signer.Headers, f "content-encoding" = none →
      (hs.foldl
        (fun f p =>
          if jsToLower p.1 = "content-encoding" then f else Signer.hSet f p.1 (.str p.2)) f)
        "content-encoding" = none := by
  induction hs with
  | nil => intro f hf; simpa using hf
  | cons p t ih =>
    intro f hf
    simp only [List.foldl_cons]
    refine ih _ ?_
    by_cases hp : jsToLower p.1 = "content-encoding"
    · simpa [hp] using hf
    · simp only [hp, if_false, Signer.hSet]
      rw [if_neg (fun h => hp h.symm)]
      exact hf

theorem copyHeaders_contentEncoding_none (hs : List (String × String)) :
    Signer.copyHeaders hs "content-encoding" = none :=
  copy_fold_contentEncoding_none hs Signer.hEmpty rfl

def c1ceEnv : Signer.SignerEnv :=
  { gunzip := fun bs => bs
    signB64 := fun _ => "c2lnbmF0dXJl"
    digestB64 := fun _ => "ZGlnZXN0"
    digestHeader := false }

def c1ceUp : Signer.UpstreamResponse :=
  { headers := [("content-type", "application/json; charset=utf-8")]
    body := [123, 34, 97, 34, 58, 49, 125] }

/-- C1 counterexample: an upstream response with content type
`application/json; charset=utf-8` is eligible under the claim's reading
(equal to the allow-list entry `application/json` once the charset
parameter is ignored), yet `serve` emits no `X-ARC-SIGNATURE` header: the
code compares the whole lowercased header value against the allow-list, so
charset parameters are not ignored for `application/*` types. -/
theorem c1_signature_counterexample :
    Signer.isEligibleSpec "application/json; charset=utf-8" = true ∧
    (Signer.serveEnd c1ceEnv c1ceUp).headers "x-arc-signature" = none ∧
    Signer.serveContentType c1ceUp = "application/json; charset=utf-8" := by
  refine ⟨by decide, by decide, by decide⟩

/-- C1 amended: provided the upstream response does not itself carry an
`x-arc-signature` header, the forwarded response carries `X-ARC-SIGNATURE`
if and only if the lowercased Content-Type header value contains the
substring `text/` or is exactly equal (including any parameters) to one of
the five allow-list entries; charset parameters are not stripped, and the
`text/` test is a substring test rather than a prefix test. -/
theorem c1_signature_iff_eligible (env : Signer.SignerEnv) (up : Signer.UpstreamResponse)
    (h : ∀ p ∈ up.headers, jsToLower p.1 ≠ "x-arc-signature") :
    ((Signer.serveEnd env up).headers "x-arc-signature").isSome =
      Signer.isEligibleSigner (Signer.serveContentType up) := by
  simp only [Signer.serveEnd]
  cases he : Signer.isEligibleSigner (Signer.serveContentType up) with
  | true =>
    simp only [he, if_true]
    have : jsToLower "x-arc-signature" = "x-arc-signature" := by decide
    simp [Signer.hSet, this]
  | false =>
    simp only [he, Bool.false_eq_true, if_false]
    have hcopy : Signer.copyHeaders up.headers "x-arc-signature" = none :=
      copyHeaders_apply_none up.headers "x-arc-signature" h
    match hcl : Signer.copyHeaders up.headers "content-length" with
    | none => simp [hcl, hcopy]
    | some hv =>
      simp only [hcl]
      by_cases hmatch :
          Signer.hvalToInt hv = some ((Signer.serveContent env up).length : Int)
      · simp [hmatch, hcopy]
      · have hne : ("x-arc-signature" : String) = jsToLower "content-length" → False := by decide
        simp only [hmatch, if_neg, if_false, Signer.hSet]
        rw [if_neg hne]
        simp [hcopy]

def c1wEnv : Signer.SignerEnv :=
  { gunzip := fun bs => bs
    signB64 := fun _ => "c2lnbmF0dXJl"
    digestB64 := fun _ => "ZGlnZXN0"
    digestHeader := true }

def c1wUp : Signer.UpstreamResponse :=
  { headers := [("content-type", "text/html"), ("content-length", "2")]
    body := [60, 62] }

/-- C1 witness: a `text/html` upstream response without pre-existing HARC
headers, evaluated through `c1_signature_iff_eligible`. -/
theorem c1_signature_iff_eligible_witness :
    ((Signer.serveEnd c1wEnv c1wUp).headers "x-arc-signature").isSome =
      Signer.isEligibleSigner (Signer.serveContentType c1wUp) :=
  c1_signature_iff_eligible c1wEnv c1wUp (by decide)

theorem hSet_apply (f : Signer.Headers) (k : String) (v : Signer.HVal) (q : String) :
    Signer.hSet f k v q = if q = jsToLower k then some v else f q := rfl

theorem serveEnd_headers_passthrough (env : Signer.SignerEnv) (up : Signer.UpstreamResponse)
    (k : String) (h1 : k ≠ "content-length") (h2 : k ≠ "x-arc-algo")
    (h3 : k ≠ "x-arc-digest") (h4 : k ≠ "x-arc-signature") :
    (Signer.serveEnd env up).headers k = Signer.copyHeaders up.headers k := by
  have e1 : jsToLower "content-length" = "content-length" := by decide
  have e2 : jsToLower "x-arc-algo" = "x-arc-algo" := by decide
  have e3 : jsToLower "x-arc-digest" = "x-arc-digest" := by decide
  have e4 : jsToLower "x-arc-signature" = "x-arc-signature" := by decide
  cases hcl : Signer.copyHeaders up.headers "content-length" with
  | none =>
    simp [Signer.serveEnd, hcl, hSet_apply, ite_apply, e1, e2, e3, e4, h1, h2, h3, h4]
  | some hv =>
    simp [Signer.serveEnd, hcl, hSet_apply, ite_apply, e1, e2, e3, e4, h1, h2, h3, h4]

theorem serveEnd_contentLength (env : Signer.SignerEnv) (up : Signer.UpstreamResponse) :
    (Signer.serveEnd env up).headers "content-length" =
      match Signer.copyHeaders up.headers "content-length" with
      | none => Signer.copyHeaders up.headers "content-length"
      | some hv =>
        if Signer.hvalToInt hv = some ((Signer.serveContent env up).length : Int) then some hv
        else some (.num (Signer.serveContent env up).length) := by
  have e1 : jsToLower "content-length" = "content-length" := by decide
  have e2 : jsToLower "x-arc-algo" = "x-arc-algo" := by decide
  have e3 : jsToLower "x-arc-digest" = "x-arc-digest" := by decide
  have e4 : jsToLower "x-arc-signature" = "x-arc-signature" := by decide
  cases hcl : Signer.copyHeaders up.headers "content-length" with
  | none =>
    simp [Signer.serveEnd, hcl, hSet_apply, ite_apply, e1, e2, e3, e4]
  | some hv =>
    by_cases hmatch : Signer.hvalToInt hv = some ((Signer.serveContent env up).length : Int) <;>
      simp [Signer.serveEnd, hcl, hmatch, hSet_apply, ite_apply, e1, e2, e3, e4]

/-- C4 amended: for every upstream response declaring
`Content-Encoding: gzip` whose content type does not declare
`charset=utf-8` (so the body is decoded with the binary/latin1 encoding),
the signer forwards exactly the decompressed bytes, omits the
`Content-Encoding` header, and, when a `Content-Length` header was
advertised, the forwarded length header denotes exactly the byte count of
the decompressed forwarded body (left untouched when it already matched,
overwritten with the recomputed count otherwise).  When the content type
declares `charset=utf-8` the code instead uses the JavaScript string
length of the decoded text, which can disagree with the forwarded byte
count (see the counterexample). -/
theorem c4_gzip_forwarding (env : Signer.SignerEnv) (up : Signer.UpstreamResponse)
    (hgz : Signer.serveContentEncoding up = "gzip")
    (hbin : Signer.serveIsUtf8 up = false)
    (hbytes : ∀ b ∈ env.gunzip up.body, b < 256) :
    (Signer.serveEnd env up).body = env.gunzip up.body ∧
    (Signer.serveEnd env up).headers "content-encoding" = none ∧
    (∀ hv, Signer.copyHeaders up.headers "content-length" = some hv →
      ∃ w, (Signer.serveEnd env up).headers "content-length" = some w ∧
        Signer.hvalToInt w = some ((env.gunzip up.body).length : Int)) := by
  have hcontent : Signer.serveContent env up = env.gunzip up.body := by
    simp [Signer.serveContent, hgz, hbin, bufToString]
  have hbody : (Signer.serveEnd env up).body = env.gunzip up.body := by
    simp only [Signer.serveEnd, hcontent, strToBytes, hbin, Bool.false_eq_true, if_false]
    exact map_mod256_eq_self _ hbytes
  refine ⟨hbody, ?_, ?_⟩
  · rw [serveEnd_headers_passthrough env up "content-encoding" (by decide) (by decide)
      (by decide) (by decide)]
    exact copyHeaders_contentEncoding_none up.headers
  · intro hv hhv
    rw [serveEnd_contentLength env up] at *
    rw [hhv]
    by_cases hmatch : Signer.hvalToInt hv = some ((Signer.serveContent env up).length : Int)
    · refine ⟨hv, by simp [hmatch], ?_⟩
      rw [hmatch, hcontent]
    · refine ⟨.num (Signer.serveContent env up).length, by simp [hmatch], ?_⟩
      simp [Signer.hvalToInt, hcontent]

def c4ceEnv : Signer.SignerEnv :=
  { gunzip := fun _ => [195, 169]
    signB64 := fun _ => "c2lnbmF0dXJl"
    digestB64 := fun _ => "ZGlnZXN0"
    digestHeader := false }

def c4ceUp : Signer.UpstreamResponse :=
  { headers := [("content-type", "text/html; charset=utf-8"),
                ("content-encoding", "gzip"),
                ("content-length", "4")]
    body := [7, 7, 7, 7] }

/-- C4 counterexample: a gzip upstream response whose decompressed body is
the 2-byte UTF-8 sequence `[0xC3, 0xA9]` (the single character is decoded
and re-encoded because the content type declares `charset=utf-8`).  The
forwarded body is those 2 bytes, but the corrected `Content-Length` header
is 1 — the JavaScript string length of the decoded text — not the true
byte count `len(B) = 2` required by the claim.  The `Content-Encoding`
header is omitted as claimed. -/
theorem c4_gzip_counterexample :
    (Signer.serveEnd c4ceEnv c4ceUp).body = [195, 169] ∧
    (Signer.serveEnd c4ceEnv c4ceUp).body.length = 2 ∧
    (Signer.serveEnd c4ceEnv c4ceUp).headers "content-length" = some (.num 1) ∧
    (Signer.serveEnd c4ceEnv c4ceUp).headers "content-encoding" = none := by
  refine ⟨by decide, by decide, by decide, by decide⟩

def c4wEnv : Signer.SignerEnv :=
  { gunzip := fun _ => [1, 2, 3]
    signB64 := fun _ => "c2lnbmF0dXJl"
    digestB64 := fun _ => "ZGlnZXN0"
    digestHeader := false }

def c4wUp : Signer.UpstreamResponse :=
  { headers := [("content-type", "application/octet-stream"),
                ("content-encoding", "gzip"),
                ("content-length", "9")]
    body := [9, 9, 9, 9, 9, 9, 9, 9, 9] }

/-- C4 witness: a binary gzip response with a stale advertised length,
evaluated through `c4_gzip_forwarding`. -/
theorem c4_gzip_forwarding_witness :
    (Signer.serveEnd c4wEnv c4wUp).body = c4wEnv.gunzip c4wUp.body ∧
    (Signer.serveEnd c4wEnv c4wUp).headers "content-encoding" = none ∧
    (∃ w, (Signer.serveEnd c4wEnv c4wUp).headers "content-length" = some w ∧
      Signer.hvalToInt w = some ((c4wEnv.gunzip c4wUp.body).length : Int)) := by
  have h := c4_gzip_forwarding c4wEnv c4wUp (by decide) (by decide) (by decide)
  exact ⟨h.1, h.2.1, h.2.2 (.str "9") (by decide)⟩

/-- C3 amended: for a captured response whose DNS record resolved to a key
that imports successfully and whose signature header is present and
decodes, the verifier tries the blob bytes first and the text-derived
bytes second; if either succeeds the resource's verdict is success (no
failure action, success-branch trust update); if both fail the verifier
invokes `invokeFailure` with the effective action — which records
`untrusted` and runs the warn/block script unless the effective action
inherited from the main resource is `doh-failure`, in which case
`doh-failure` is recorded and no script runs. -/
theorem c3_two_representations (env : BG.VerifyEnv) (st : BG.TabState) (resp : BG.Response)
    (tabUrl r : String) (d : BG.RespData) (a k se : String)
    (hres : env.dohResolver = some r) (hne : r ≠ resp.url)
    (hbuf : mapGet resp.url st.tabResponses = some d)
    (hdns : BG.getHARCDNSPayload env = (some a, some k))
    (himp : env.importOk (some k) = true)
    (hsig : BG.extractSignature resp.headers = some se)
    (hatob : env.atobOk se = true) :
    ((env.verifyData d.blob = true ∨ env.verifyData d.ab = true) →
      (BG.verifyResponseContent env st resp tabUrl).script = none ∧
      (BG.verifyResponseContent env st resp tabUrl).validation =
        some (BG.successUpdate st.validation)) ∧
    (env.verifyData d.blob = false → env.verifyData d.ab = false →
      (BG.verifyResponseContent env st resp tabUrl).validation =
        some ((BG.invokeFailureUpdate (BG.effectiveAction st resp.url tabUrl (some a))).1) ∧
      (BG.verifyResponseContent env st resp tabUrl).script =
        (BG.invokeFailureUpdate (BG.effectiveAction st resp.url tabUrl (some a))).2) := by
  constructor
  · intro hv
    cases hb : env.verifyData d.blob with
    | true =>
      simp [BG.verifyResponseContent, hres, hne, hbuf, hdns, himp, hsig, hatob, hb]
    | false =>
      have ha : env.verifyData d.ab = true := by
        rcases hv with hv | hv
        · rw [hb] at hv; exact absurd hv (by simp)
        · exact hv
      simp [BG.verifyResponseContent, hres, hne, hbuf, hdns, himp, hsig, hatob, hb, ha]
  · intro hb ha
    simp [BG.verifyResponseContent, hres, hne, hbuf, hdns, himp, hsig, hatob, hb, ha]

def c3ceEnv : BG.VerifyEnv :=
  { dohResolver := some "https://mozilla.cloudflare-dns.com/dns-query"
    dohResolvable := true
    queryResult := some ["warn;TUlJS0VZ"]
    importOk := fun _ => true
    atobOk := fun _ => true
    verifyData := fun _ => false }

def c3ceData : BG.RespData := ⟨[1, 2], [3, 4]⟩

def c3ceSt : BG.TabState :=
  { tabAction := some (some "doh-failure")
    tabResponses := [("http://sub.example.com/a.png", c3ceData)]
    validation := none }

def c3ceResp : BG.Response :=
  ⟨"http://sub.example.com/a.png", [("X-ARC-SIGNATURE", "c2ln")]⟩

def c3ceOut : BG.VerifyOutcome :=
  BG.verifyResponseContent c3ceEnv c3ceSt c3ceResp "http://www.example.com/"

/-- C3 counterexample: a sub-resource with a present signature header and a
successfully imported key, for which verification fails on both retained
byte representations — yet because the tab inherited the main resource's
recorded action `doh-failure`, the verifier records `doh-failure` (not
`untrusted`) and invokes no failure action, contrary to the claim that
both representations failing always records `untrusted` and invokes the
failure action. -/
theorem c3_two_representations_counterexample :
    c3ceEnv.verifyData c3ceData.blob = false ∧
    c3ceEnv.verifyData c3ceData.ab = false ∧
    BG.extractSignature c3ceResp.headers = some "c2ln" ∧
    c3ceEnv.importOk (BG.getHARCDNSPayload c3ceEnv).2 = true ∧
    c3ceOut.validation = some "doh-failure" ∧
    c3ceOut.validation ≠ some "untrusted" ∧
    c3ceOut.script = none := by
  refine ⟨by decide, by decide, by decide, by decide, by decide, by decide, by decide⟩

def c3wEnv : BG.VerifyEnv :=
  { dohResolver := some "https://mozilla.cloudflare-dns.com/dns-query"
    dohResolvable := true
    queryResult := some ["enforce;TUlJS0VZ"]
    importOk := fun _ => true
    atobOk := fun _ => true
    verifyData := fun bs => bs == [3, 4] }

def c3wSt : BG.TabState :=
  { tabAction := none
    tabResponses := [("http://www.example.com/", c3ceData)]
    validation := none }

def c3wResp : BG.Response :=
  ⟨"http://www.example.com/", [("X-ARC-SIGNATURE", "c2ln")]⟩

/-- C3 witness: a main-frame resource whose blob representation verifies,
evaluated through `c3_two_representations`. -/
theorem c3_two_representations_witness :
    (BG.verifyResponseContent c3wEnv c3wSt c3wResp "http://www.example.com/").script = none ∧
    (BG.verifyResponseContent c3wEnv c3wSt c3wResp "http://www.example.com/").validation =
      some (BG.successUpdate c3wSt.validation) := by
  have h := c3_two_representations c3wEnv c3wSt c3wResp "http://www.example.com/"
    "https://mozilla.cloudflare-dns.com/dns-query" c3ceData "enforce" "TUlJS0VZ" "c2ln"
    (by decide) (by decide) (by decide) (by decide) (by decide) (by decide) (by decide)
  exact h.1 (Or.inl (by decide))

/-- C7 amended: when the DoH endpoint's hostname is not resolvable,
`getHARCDNSPayload` returns the `doh-failure` payload immediately (before
any TXT query, whatever its outcome would be); for the navigation's
main-frame resource this is recorded as the distinct trust state
`doh-failure` — not `untrusted` — and no warn or block script is invoked.
For a sub-resource the effective action is inherited from the main
resource's `TAB_ACTION_MAP` entry, and a DoH failure can instead be
recorded as `untrusted` with the warn/block script (see the
counterexample). -/
theorem c7_doh_failure_distinct (env : BG.VerifyEnv) (st : BG.TabState) (resp : BG.Response)
    (tabUrl r : String) (d : BG.RespData)
    (hres : env.dohResolver = some r) (hne : r ≠ resp.url)
    (hbuf : mapGet resp.url st.tabResponses = some d)
    (hfail : env.dohResolvable = false)
    (himp : env.importOk none = false)
    (hmain : resp.url = tabUrl) :
    BG.getHARCDNSPayload env = (some "doh-failure", none) ∧
    (BG.verifyResponseContent env st resp tabUrl).validation = some "doh-failure" ∧
    (BG.verifyResponseContent env st resp tabUrl).script = none := by
  have hdns : BG.getHARCDNSPayload env = (some "doh-failure", none) := by
    simp [BG.getHARCDNSPayload, hfail]
  refine ⟨hdns, ?_⟩
  have hact : BG.effectiveAction st resp.url tabUrl (some "doh-failure") = some "doh-failure" := by
    simp [BG.effectiveAction, hmain]
  constructor <;>
    simp [BG.verifyResponseContent, hres, hne, hbuf, hdns, himp, hact,
      BG.invokeFailureUpdate]

def c7ceEnv : BG.VerifyEnv :=
  { dohResolver := some "https://mozilla.cloudflare-dns.com/dns-query"
    dohResolvable := false
    queryResult := some []
    importOk := fun _ => false
    atobOk := fun _ => true
    verifyData := fun _ => false }

def c7ceData : BG.RespData := ⟨[1], [1]⟩

def c7ceSt : BG.TabState :=
  { tabAction := some (some "warn")
    tabResponses := [("http://sub.example.com/a.png", c7ceData)]
    validation := none }

def c7ceOut : BG.VerifyOutcome :=
  BG.verifyResponseContent c7ceEnv c7ceSt
    ⟨"http://sub.example.com/a.png", []⟩ "http://www.example.com/"

/-- C7 counterexample: the DoH endpoint is unresolvable while a
sub-resource is being verified and the tab's recorded main action is
`warn`; the resolver returns the DoH-failure payload, but the outcome is
recorded as `untrusted` and the warn failure script is executed — contrary
to the claim that a DoH resolution failure is recorded as `doh-failure`,
never as `untrusted`, and invokes no warn/enforce script. -/
theorem c7_doh_failure_counterexample :
    c7ceEnv.dohResolvable = false ∧
    BG.getHARCDNSPayload c7ceEnv = (some "doh-failure", none) ∧
    c7ceOut.validation = some "untrusted" ∧
    c7ceOut.validation ≠ some "doh-failure" ∧
    c7ceOut.script = some "src/actions/warn.js" := by
  refine ⟨by decide, by decide, by decide, by decide, by decide⟩

def c7wEnv : BG.VerifyEnv :=
  { dohResolver := some "https://mozilla.cloudflare-dns.com/dns-query"
    dohResolvable := false
    queryResult := none
    importOk := fun _ => false
    atobOk := fun _ => true
    verifyData := fun _ => false }

def c7wSt : BG.TabState :=
  { tabAction := none
    tabResponses := [("http://www.example.com/", c7ceData)]
    validation := none }

/-- C7 witness: a main-frame resource hit by a DoH resolution failure,
evaluated through `c7_doh_failure_distinct`. -/
theorem c7_doh_failure_distinct_witness :
    BG.getHARCDNSPayload c7wEnv = (some "doh-failure", none) ∧
    (BG.verifyResponseContent c7wEnv c7wSt ⟨"http://www.example.com/", []⟩
      "http://www.example.com/").validation = some "doh-failure" ∧
    (BG.verifyResponseContent c7wEnv c7wSt ⟨"http://www.example.com/", []⟩
      "http://www.example.com/").script = none :=
  c7_doh_failure_distinct c7wEnv c7wSt ⟨"http://www.example.com/", []⟩
    "http://www.example.com/" "https://mozilla.cloudflare-dns.com/dns-query" c7ceData
    (by decide) (by decide) (by decide) (by decide) (by decide) (by decide)

/-- C9 amended: the Response Capture entry for a URL is deleted exactly
when evaluation reaches the signature-verification step (verdicts
`trusted`/`trusted-partial` or untrusted-by-mismatch); under the
hypotheses that get the flow to that step, the entry is gone from the
returned state whatever the verification outcome.  On the early failure
paths — public-key import failure, missing signature header, signature
decode failure — and on the ignored-domain path, the entry is left in
place and outlives the recorded verdict (see the counterexample). -/
theorem c9_capture_deleted_on_verification (env : BG.VerifyEnv) (st : BG.TabState)
    (resp : BG.Response) (tabUrl r : String) (d : BG.RespData) (a k se : String)
    (hres : env.dohResolver = some r) (hne : r ≠ resp.url)
    (hbuf : mapGet resp.url st.tabResponses = some d)
    (hdns : BG.getHARCDNSPayload env = (some a, some k))
    (himp : env.importOk (some k) = true)
    (hsig : BG.extractSignature resp.headers = some se)
    (hatob : env.atobOk se = true) :
    mapGet resp.url (BG.verifyResponseContent env st resp tabUrl).tabResponses = none := by
  simp only [BG.verifyResponseContent, hres, hne, hbuf, hdns, himp, hsig, hatob,
    Option.some.injEq, reduceCtorEq]
  repeat' split
  all_goals first
    | exact mapGet_mapDelete_self resp.url st.tabResponses
    | simp_all

def c9ceEnv : BG.VerifyEnv :=
  { dohResolver := some "https://mozilla.cloudflare-dns.com/dns-query"
    dohResolvable := true
    queryResult := some ["warn;TUlJS0VZ"]
    importOk := fun _ => false
    atobOk := fun _ => true
    verifyData := fun _ => false }

def c9ceData : BG.RespData := ⟨[1, 2], [3, 4]⟩

def c9ceSt : BG.TabState :=
  { tabAction := none
    tabResponses := [("http://www.example.com/", c9ceData)]
    validation := none }

def c9ceOut : BG.VerifyOutcome :=
  BG.verifyResponseContent c9ceEnv c9ceSt
    ⟨"http://www.example.com/", [("X-ARC-SIGNATURE", "c2ln")]⟩ "http://www.example.com/"

/-- C9 counterexample: a public-key import failure records the verdict
`untrusted`, yet the Response Capture entry for the URL is still present
in the resulting state — the captured payload outlives the trust-state
update, contrary to the claim that it is deleted by the time any verdict
(including import-failure) is recorded. -/
theorem c9_capture_counterexample :
    c9ceOut.validation = some "untrusted" ∧
    mapGet "http://www.example.com/" c9ceOut.tabResponses = some c9ceData := by
  refine ⟨by decide, by decide⟩

def c9wEnv : BG.VerifyEnv :=
  { dohResolver := some "https://mozilla.cloudflare-dns.com/dns-query"
    dohResolvable := true
    queryResult := some ["warn;TUlJS0VZ"]
    importOk := fun _ => true
    atobOk := fun _ => true
    verifyData := fun _ => false }

def c9wSt : BG.TabState :=
  { tabAction := none
    tabResponses := [("http://www.example.com/", c9ceData)]
    validation := none }

/-- C9 witness: a resource reaching the verification step (failing
verification), evaluated through `c9_capture_deleted_on_verification`. -/
theorem c9_capture_deleted_on_verification_witness :
    mapGet "http://www.example.com/"
      (BG.verifyResponseContent c9wEnv c9wSt
        ⟨"http://www.example.com/", [("X-ARC-SIGNATURE", "c2ln")]⟩
        "http://www.example.com/").tabResponses = none :=
  c9_capture_deleted_on_verification c9wEnv c9wSt
    ⟨"http://www.example.com/", [("X-ARC-SIGNATURE", "c2ln")]⟩ "http://www.example.com/"
    "https://mozilla.cloudflare-dns.com/dns-query" c9ceData "warn" "TUlJS0VZ" "c2ln"
    (by decide) (by decide) (by decide) (by decide) (by decide) (by decide) (by decide)

end HARC
